import Mathlib

/-
Shallow embedding of the Linsl interpreter (src/datatypes.rs, src/primitives.rs,
src/parsing.rs, src/evaluation.rs).

Modelling conventions:
- `Num` (Rust `f64`) is modelled as `Rat`.  All numeric literals appearing in the
  claims are small integers, on which f64 arithmetic is exact and agrees with `Rat`.
- Rust `HashMap<String, LinslExpr>` is modelled as an association list where
  `insert` prepends and lookup takes the first hit, which has the same observable
  lookup behaviour as hashmap insert-with-overwrite.
- Rust panics (such as the usize underflow `i - 1` with `i = 0` in `bind`) are made
  explicit as a `panic` result constructor; Lean's truncated `Nat` subtraction is
  never used where the source could underflow.
- Recursive interpreter functions take an explicit fuel argument; `fuelOut` models
  exhaustion of the host call stack (the source recurses on the Rust stack).
- Rust function pointers stored in `Primitive` are defunctionalised into the
  `PrimFn` tag type dispatched by `applyPrim`.
- The Rust constructor `Macro` is named `macr` here (`macro` is a Lean keyword);
  `evaluate_macro` is named `evaluate_macr_form` for the same reason.
-/

namespace Linsl

/-- Models `pub type Num = f64` (datatypes.rs). -/
abbrev Num := Rat

/-- Models `pub type PosNum = usize` (datatypes.rs). -/
abbrev PosNum := Nat

/-- Position of a token, `(line, column)`.  datatypes.rs declares `Pos` as
`Vec<PosNum>` but every construction in the sources is a pair `(a, b)`. -/
abbrev Pos := PosNum × PosNum

/-- Tags for the built-in functions of primitives.rs; defunctionalises the Rust
function pointers stored in `LinslExpr::Primitive`. -/
inductive PrimFn where
  | add
  | append
  | car
  | cdr
  | eq
  | gr
  | inv
  | list
  | mul
  | neg
  | is_nil
  | eq_types
deriving DecidableEq, Repr

/-- Models `enum LinslExpr` of datatypes.rs (`Macro` is rendered `macr`). -/
inductive LinslExpr where
  | bool : Bool → LinslExpr
  | closure : LinslExpr → LinslExpr → LinslExpr
  | list : List LinslExpr → LinslExpr
  | number : Num → LinslExpr
  | primitive : PrimFn → LinslExpr
  | symbol : String → LinslExpr
  | macr : LinslExpr → LinslExpr → LinslExpr

/-- Models `enum LinslErr` of datatypes.rs. -/
inductive LinslErr where
  | InternalError : String → LinslErr
  | SyntaxError : String → Pos → LinslErr
  | UnbalancedParens : PosNum → PosNum → LinslErr
deriving DecidableEq, Repr

/-- Models `type LinslRes = Result<LinslExpr, LinslErr>`. -/
abbrev LinslRes := Except LinslErr LinslExpr

mutual

/-- Models `impl fmt::Display for LinslExpr` (datatypes.rs).  Number rendering is
exact only for integral values, which is all the claims exercise. -/
def display : LinslExpr → String
  | .bool b => if b then "#t" else "#f"
  | .closure ps bd => "(lambda " ++ display ps ++ ", " ++ display bd ++ ")"
  | .primitive _ => "Primitive operator"
  | .list xs => "(" ++ String.intercalate " " (displayList xs) ++ ")"
  | .number v => if v.den = 1 then toString v.num else toString v.num ++ "/" ++ toString v.den
  | .symbol s => s
  | .macr ps bd => "(macro " ++ display ps ++ ", " ++ display bd ++ ")"

/-- Renders each list element, as the `map(|x| x.to_string())` in the source. -/
def displayList : List LinslExpr → List String
  | [] => []
  | x :: xs => display x :: displayList xs

end

/-- Models `struct LinslEnv` of datatypes.rs.  The Rust `outer` field is a
reference to the enclosing scope; since the source only ever mutates the
innermost scope (the outer chain is behind an immutable borrow), embedding the
outer scope by value is faithful. -/
inductive LinslEnv where
  | mk : List (String × LinslExpr) → Option LinslEnv → LinslEnv

/-- Inner (local) scope of an environment. -/
def LinslEnv.inner : LinslEnv → List (String × LinslExpr)
  | .mk i _ => i

/-- Immediate outer scope of an environment, if any. -/
def LinslEnv.outer : LinslEnv → Option LinslEnv
  | .mk _ o => o

/-- Association-list lookup, the observable behaviour of `HashMap::get`. -/
def lookupStr : List (String × LinslExpr) → String → Option LinslExpr
  | [], _ => none
  | (k, v) :: rest, s => if s = k then some v else lookupStr rest s

/-- Models `env.inner.insert(k, v)`: latest insertion wins on lookup. -/
def envInsert (env : LinslEnv) (k : String) (v : LinslExpr) : LinslEnv :=
  .mk ((k, v) :: env.inner) env.outer

/-- Models `LinslEnv::new(outer)` (datatypes.rs). -/
def LinslEnv.new (outer : LinslEnv) : LinslEnv :=
  .mk [] (some outer)

/-- Models `env_get` of evaluation.rs: innermost scope first, then outward. -/
def env_get (s : String) : LinslEnv → Option LinslExpr
  | .mk inner outer =>
    match lookupStr inner s with
    | some expr => some expr
    | none =>
      match outer with
      | some outer_env => env_get s outer_env
      | none => none

/-- Models `parse_num` of parsing.rs. -/
def parse_num (expr : LinslExpr) : Except LinslErr Num :=
  match expr with
  | .number v => .ok v
  | _ => .error (.SyntaxError ("Expected numbers, found \x27" ++ display expr ++ "\x27") (0, 0))

/-- Models `parse_list_of_nums` of parsing.rs (`collect` stops at the first
error, in order). -/
def parse_list_of_nums : List LinslExpr → Except LinslErr (List Num)
  | [] => .ok []
  | e :: es =>
    match parse_num e with
    | .ok v =>
      match parse_list_of_nums es with
      | .ok vs => .ok (v :: vs)
      | .error err => .error err
    | .error err => .error err

/-- Iteration core of `parse_list_of_symbols` of parsing.rs. -/
def collectSyms : List LinslExpr → Except LinslErr (List String)
  | [] => .ok []
  | x :: xs =>
    match x with
    | .symbol s =>
      match collectSyms xs with
      | .ok rest => .ok (s :: rest)
      | .error err => .error err
    | _ => .error (.SyntaxError ("Expected symbol, found \x27" ++ display x ++ "\x27") (0, 0))

/-- Models `parse_list_of_symbols` of parsing.rs. -/
def parse_list_of_symbols (symbs : LinslExpr) : Except LinslErr (List String) :=
  match symbs with
  | .list l => collectSyms l
  | _ => .error (.SyntaxError ("Expected list of symbols, found \x27" ++ display symbs ++ "\x27") (0, 0))

/-- Models `add` of primitives.rs. -/
def add (exprs : List LinslExpr) : LinslRes :=
  match parse_list_of_nums exprs with
  | .ok nums => .ok (.number (nums.foldl (fun sum v => sum + v) 0))
  | .error e => .error e

/-- Models `mul` of primitives.rs. -/
def mul (exprs : List LinslExpr) : LinslRes :=
  match parse_list_of_nums exprs with
  | .ok nums => .ok (.number (nums.foldl (fun m v => m * v) 1))
  | .error e => .error e

/-- Models `neg` of primitives.rs (zero arguments negate 0). -/
def neg (expr : List LinslExpr) : LinslRes :=
  match expr with
  | [] => .ok (.number 0)
  | e :: _ =>
    match parse_num e with
    | .ok v => .ok (.number (-v))
    | .error err => .error err

/-- Models `inv` of primitives.rs. -/
def inv (expr : List LinslExpr) : LinslRes :=
  match expr with
  | [] => .error (.SyntaxError "No number to invert!" (0, 0))
  | e :: _ =>
    match parse_num e with
    | .ok num =>
      if num = 0 then .error (.SyntaxError "Cannot invert 0" (0, 0))
      else .ok (.number (1 / num))
    | .error err => .error err

/-- Models `eq` of primitives.rs. -/
def eq (exprs : List LinslExpr) : LinslRes :=
  match exprs with
  | [a, b] =>
    match a, b with
    | .bool b1, .bool b2 => .ok (.bool (b1 == b2))
    | .number v1, .number v2 => .ok (.bool (decide (v1 = v2)))
    | .symbol s1, .symbol s2 => .ok (.bool (s1 == s2))
    | _, _ =>
      .error (.SyntaxError
        "Can only compare expressions the same types, and only bools, numbers and symbols."
        (0, 0))
  | _ =>
    .error (.SyntaxError ("Expected 2 arguments to compare, got " ++ toString exprs.length) (0, 0))

/-- Models `gr` of primitives.rs.  The arity check raises `InternalError`
(unlike every other primitive, which uses `SyntaxError`). -/
def gr (exprs : List LinslExpr) : LinslRes :=
  match exprs with
  | [a, b] =>
    match a, b with
    | .number v1, .number v2 => .ok (.bool (decide (v2 < v1)))
    | _, _ => .error (.SyntaxError "Can only compare numbers with >" (0, 0))
  | _ =>
    .error (.InternalError ("Expected two numbers two compare, got " ++ toString exprs.length))

/-- Models `car` of primitives.rs. -/
def car (expr : List LinslExpr) : LinslRes :=
  match expr with
  | [e] =>
    match e with
    | .list linsl_exprs =>
      match linsl_exprs with
      | x :: _ => .ok x
      | [] => .ok (.list [])
    | _ => .error (.SyntaxError "Can only find car of lists" (0, 0))
  | _ => .error (.SyntaxError ("Expected 1 argument, found " ++ toString expr.length) (0, 0))

/-- Models `cdr` of primitives.rs. -/
def cdr (expr : List LinslExpr) : LinslRes :=
  match expr with
  | [e] =>
    match e with
    | .list linsl_exprs =>
      match linsl_exprs with
      | _ :: tail => .ok (.list tail)
      | [] => .ok (.list [])
    | _ => .error (.SyntaxError "Can only find cdr of lists." (0, 0))
  | _ => .error (.SyntaxError ("Expected 1 argument, found " ++ toString expr.length) (0, 0))

/-- While-loop core of `append` of primitives.rs, accumulating elements. -/
def appendLoop : List LinslExpr → List LinslExpr → LinslRes
  | [], acc => .ok (.list acc)
  | e :: es, acc =>
    match e with
    | .list linsl_exprs => appendLoop es (acc ++ linsl_exprs)
    | _ => .error (.SyntaxError "append must be supplied with list(s)" (0, 0))

/-- Models `append` of primitives.rs. -/
def append (exprs : List LinslExpr) : LinslRes :=
  match exprs with
  | [] =>
    .error (.SyntaxError "append needs at least one argument, none were supplied" (0, 0))
  | [e] =>
    match e with
    | .list linsl_exprs => .ok (.list linsl_exprs)
    | _ => .error (.SyntaxError "append must be supplied with list(s)" (0, 0))
  | _ => appendLoop exprs []

/-- Models `list` of primitives.rs. -/
def list (exprs : List LinslExpr) : LinslRes :=
  .ok (.list exprs)

/-- Models `is_nil` of primitives.rs (the function behind the spec's `empty?`). -/
def is_nil (expr : List LinslExpr) : LinslRes :=
  match expr with
  | [e] =>
    match e with
    | .list linsl_exprs => .ok (.bool linsl_exprs.isEmpty)
    | _ => .ok (.bool false)
  | _ => .error (.SyntaxError ("Expected 1 argument, found " ++ toString expr.length) (0, 0))

/-- Variant tag used to model the `matches!` test in `eq_types`. -/
def variantTag : LinslExpr → Nat
  | .bool _ => 0
  | .closure _ _ => 1
  | .list _ => 2
  | .number _ => 3
  | .primitive _ => 4
  | .symbol _ => 5
  | .macr _ _ => 6

/-- Models `eq_types` of primitives.rs (the function behind the spec's `eqt?`). -/
def eq_types (exprs : List LinslExpr) : LinslRes :=
  match exprs with
  | [a, b] => .ok (.bool (variantTag a == variantTag b))
  | _ => .error (.SyntaxError ("Expected 2 arguments, found " ++ toString exprs.length) (0, 0))

/-- Dispatch for the defunctionalised primitive function pointers. -/
def applyPrim : PrimFn → List LinslExpr → LinslRes
  | .add, e => add e
  | .append, e => append e
  | .car, e => car e
  | .cdr, e => cdr e
  | .eq, e => eq e
  | .gr, e => gr e
  | .inv, e => inv e
  | .list, e => list e
  | .mul, e => mul e
  | .neg, e => neg e
  | .is_nil, e => is_nil e
  | .eq_types, e => eq_types e

/-- Models `LinslEnv::default` of datatypes.rs: the root environment, inserting
exactly the eight primitives the source registers. -/
def LinslEnv.default : LinslEnv :=
  .mk
    [("+", .primitive .add),
     ("neg", .primitive .neg),
     ("*", .primitive .mul),
     ("inv", .primitive .inv),
     ("=", .primitive .eq),
     (">", .primitive .gr),
     ("car", .primitive .car),
     ("cdr", .primitive .cdr)]
    none

/-- Result of `bind` (evaluation.rs): a new environment, an error, or a Rust
panic (the usize underflow reachable when the symbol list is empty and the
value list is not). -/
inductive BindOut where
  | ok : LinslEnv → BindOut
  | err : LinslErr → BindOut
  | panic : BindOut

/-- Models `bind` of evaluation.rs.  The zip-loop inserts the first
`min(symbols, values)` pairs; when there are more values than symbols the last
symbol is re-bound to the list of values from index `symbols - 1` on
(`split_at(i - 1)`).  When `symbols = 0 < values`, the source computes
`0usize - 1`, which panics. -/
def bind (symbs vals : LinslExpr) (env : LinslEnv) : BindOut :=
  match parse_list_of_symbols symbs with
  | .error e => .err e
  | .ok symbs_vec =>
    match vals with
    | .list vals_vec =>
      if symbs_vec.length > vals_vec.length then
        .err (.SyntaxError
          ("Got " ++ toString symbs_vec.length ++ " symbols and " ++ toString vals_vec.length
            ++ " values; cannot have more symbols than values.")
          (0, 0))
      else
        let env1 := (symbs_vec.zip vals_vec).foldl (fun e kv => envInsert e kv.1 kv.2) env
        if symbs_vec.length < vals_vec.length then
          match symbs_vec.length with
          | 0 => .panic
          | Nat.succ k =>
            .ok (envInsert env1 (symbs_vec.getD k "") (.list (vals_vec.drop k)))
        else
          .ok env1
    | _ => .err (.SyntaxError "Expected list of values." (0, 0))

/-- Result of one evaluator step: value plus the updated current scope (the
source takes `&mut LinslEnv` and only the innermost scope is ever mutated), an
error, a Rust panic, or exhaustion of the recursion budget (host stack). -/
inductive EvalOut where
  | ok : LinslExpr → LinslEnv → EvalOut
  | err : LinslErr → EvalOut
  | panic : EvalOut
  | fuelOut : EvalOut

/-- Result of `evaluate_forms`: the evaluated forms plus the updated scope. -/
inductive FormsOut where
  | ok : List LinslExpr → LinslEnv → FormsOut
  | err : LinslErr → FormsOut
  | panic : FormsOut
  | fuelOut : FormsOut

/-- Models `get_params_and_body` of evaluation.rs. -/
def get_params_and_body (exprs : List LinslExpr) : Except LinslErr (LinslExpr × LinslExpr) :=
  if exprs.length ≠ 2 then
    .error (.SyntaxError
      ("Lambda must be given two expressions, found " ++ toString exprs.length) (0, 0))
  else
    match exprs with
    | [] => .error (.InternalError "Could not read parameters.")
    | [_] => .error (.InternalError "Could not read lambda body.")
    | p :: b :: _ => .ok (p, b)

/-- Models `evaluate_lambda` of evaluation.rs.  The source handler returns a
bare `LinslRes`; the unchanged scope is threaded here because the embedding
passes scopes by value. -/
def evaluate_lambda (exprs : List LinslExpr) (env : LinslEnv) : EvalOut :=
  match get_params_and_body exprs with
  | .ok (params_form, body_form) => .ok (.closure params_form body_form) env
  | .error e => .err e

/-- Models `evaluate_macro` of evaluation.rs (name adapted, see header). -/
def evaluate_macr_form (exprs : List LinslExpr) (env : LinslEnv) : EvalOut :=
  match get_params_and_body exprs with
  | .ok (params_form, body_form) => .ok (.macr params_form body_form) env
  | .error e => .err e

mutual

/-- Models `evaluate` of evaluation.rs.  The unused `pos: PosNum` argument of
the source (dead diagnostics plumbing) is omitted. -/
def evaluate : Nat → LinslExpr → LinslEnv → EvalOut
  | 0, _, _ => .fuelOut
  | Nat.succ n, expr, env =>
    match expr with
    | .bool _ => .ok expr env
    | .list exprs => evaluate_list n exprs env
    | .number _ => .ok expr env
    | .symbol s =>
      match env_get s env with
      | some v => .ok v env
      | none => .err (.SyntaxError ("Undefined symbol \x27" ++ s ++ "\x27") (0, 0))
    | _ =>
      .err (.SyntaxError ("Expected list or atom, found \x27" ++ display expr ++ "\x27") (0, 0))

/-- Models `evaluate_list` of evaluation.rs. -/
def evaluate_list : Nat → List LinslExpr → LinslEnv → EvalOut
  | 0, _, _ => .fuelOut
  | Nat.succ n, exprs, env =>
    match exprs with
    | [] => .err (.SyntaxError "Expected non-empty list" (0, 0))
    | head :: param_forms =>
      match evaluate_built_in_form n head param_forms env with
      | some res => res
      | none =>
        match evaluate n head env with
        | .ok prim env1 =>
          match prim with
          | .closure param body =>
            match evaluate_forms n param_forms env1 with
            | .ok evals env2 =>
              match bind param (.list evals) (LinslEnv.new env2) with
              | .ok lambda_env =>
                match evaluate n body lambda_env with
                | .ok v _ => .ok v env2
                | other => other
              | .err e => .err e
              | .panic => .panic
            | .err e => .err e
            | .panic => .panic
            | .fuelOut => .fuelOut
          | .primitive f =>
            match evaluate_forms n param_forms env1 with
            | .ok params_eval env2 =>
              match applyPrim f params_eval with
              | .ok v => .ok v env2
              | .error e => .err e
            | .err e => .err e
            | .panic => .panic
            | .fuelOut => .fuelOut
          | .macr param body =>
            match bind param (.list param_forms) (LinslEnv.new env1) with
            | .ok macro_env =>
              match evaluate n body macro_env with
              | .ok expansion _ => evaluate n expansion env1
              | other => other
            | .err e => .err e
            | .panic => .panic
          | _ =>
            .err (.SyntaxError
              ("Expected the head of list to be a primitive, found \x27" ++ display prim ++ "\x27")
              (0, 0))
        | other => other

/-- Models `evaluate_built_in_form` of evaluation.rs: dispatch on the five
special-form names, tried before any environment lookup of the head. -/
def evaluate_built_in_form : Nat → LinslExpr → List LinslExpr → LinslEnv → Option EvalOut
  | 0, _, _, _ => some .fuelOut
  | Nat.succ n, expr, param_forms, env =>
    match expr with
    | .symbol s =>
      if s = "define" then some (evaluate_define n param_forms env)
      else if s = "if" then some (evaluate_if n param_forms env)
      else if s = "lambda" then some (evaluate_lambda param_forms env)
      else if s = "macro" then some (evaluate_macr_form param_forms env)
      else if s = "quote" then
        match param_forms with
        | e :: _ => some (.ok e env)
        | [] => some (.err (.SyntaxError "Found no expression to quote." (0, 0)))
      else none
    | _ => none

/-- Models `evaluate_define` of evaluation.rs. -/
def evaluate_define : Nat → List LinslExpr → LinslEnv → EvalOut
  | 0, _, _ => .fuelOut
  | Nat.succ n, exprs, env =>
    if exprs.length ≠ 2 then
      .err (.SyntaxError
        ("define must have two forms, found \x27" ++ toString exprs.length ++ "\x27") (0, 0))
    else
      match exprs with
      | [] => .err (.InternalError "Could not read define name.")
      | name_form :: val_form =>
        match name_form with
        | .symbol name =>
          match val_form with
          | v :: _ =>
            match evaluate n v env with
            | .ok val env1 => .ok name_form (envInsert env1 name val)
            | other => other
          | [] => .panic
        | _ =>
          .err (.SyntaxError
            ("First define form must be a symbol, found \x27" ++ display name_form ++ "\x27")
            (0, 0))

/-- Models `evaluate_if` of evaluation.rs. -/
def evaluate_if : Nat → List LinslExpr → LinslEnv → EvalOut
  | 0, _, _ => .fuelOut
  | Nat.succ n, exprs, env =>
    if exprs.length ≠ 3 then
      .err (.SyntaxError ("Expected 3 arguments to if, found " ++ toString exprs.length) (0, 0))
    else
      match exprs with
      | [] => .err (.InternalError "Could not read if test")
      | test_form :: body =>
        match evaluate n test_form env with
        | .ok test env1 =>
          match test with
          | .bool b =>
            if b then
              match body with
              | e :: _ => evaluate n e env1
              | [] => .panic
            else
              match body with
              | _ :: e :: _ => evaluate n e env1
              | _ => .panic
          | _ =>
            .err (.SyntaxError
              ("Test form must evaluate to bool, but evaluated to \x27" ++ display test ++ "\x27")
              (0, 0))
        | other => other

/-- Models `evaluate_forms` of evaluation.rs, threading scope mutations left to
right and stopping at the first error. -/
def evaluate_forms : Nat → List LinslExpr → LinslEnv → FormsOut
  | 0, _, _ => .fuelOut
  | Nat.succ _, [], env => .ok [] env
  | Nat.succ n, f :: fs, env =>
    match evaluate n f env with
    | .ok v env1 =>
      match evaluate_forms n fs env1 with
      | .ok vs env2 => .ok (v :: vs) env2
      | other => other
    | .err e => .err e
    | .panic => .panic
    | .fuelOut => .fuelOut

end

/-- Delimiter characters of the tokenizer regex character class
`[('` + backtick + `,)]` (parsing.rs). -/
def isDelim (c : Char) : Bool :=
  c = '(' || c = Char.ofNat 39 || c = Char.ofNat 96 || c = ',' || c = ')'

/-- Character test for atoms: the regex class excludes whitespace, the
delimiters, `;` and `)`. -/
def isAtomChar (c : Char) : Bool :=
  !(c.isWhitespace || isDelim c || c = ';')

/-- One-line tokenization core, modelling the regex loop of
`Tokenizer::tokenize_line` (parsing.rs): skip whitespace, then emit `,@`, a
single delimiter, drop a `;` comment, or take a maximal atom run.  The fuel is
at least the character count, which the loop consumes one-or-more per token. -/
def tokenizeAux : Nat → List Char → List String
  | 0, _ => []
  | Nat.succ n, cs =>
    match cs.dropWhile Char.isWhitespace with
    | [] => []
    | ',' :: '@' :: rest => ",@" :: tokenizeAux n rest
    | c :: rest =>
      if isDelim c then String.mk [c] :: tokenizeAux n rest
      else if c = ';' then []
      else
        String.mk ((c :: rest).takeWhile isAtomChar)
          :: tokenizeAux n ((c :: rest).dropWhile isAtomChar)

/-- Tokenizes one line of input. -/
def tokenizeLine (s : String) : List String :=
  tokenizeAux (s.length + 1) s.toList

/-- Models `check_parens` of parsing.rs.  The function exists in the source but
has no caller anywhere in the pipeline. -/
def check_parens (string : String) : Option (Nat × Nat) :=
  let opening := string.toList.count '('
  let closing := string.toList.count ')'
  if opening ≠ closing then some (opening, closing) else none

/-- Parser-visible tokenizer state: the pending `(lexeme, position)` queue and
`latest_pos` (parsing.rs `Tokenizer`).  The claims evaluate in-memory single
lines, so the input-source queue and its I/O errors are not modelled. -/
structure PState where
  tokens : List (String × Pos)
  latestPos : Pos

/-- Models `Tokenizer::next_token`: pop the next token and record its position. -/
def nextToken (st : PState) : Option (String × PState) :=
  match st.tokens with
  | [] => none
  | (t, p) :: rest => some (t, ⟨rest, p⟩)

/-- Models `Tokenizer::peek`: look at the next lexeme without consuming it. -/
def peekToken (st : PState) : Option String :=
  match st.tokens with
  | [] => none
  | (t, _) :: _ => some t

/-- Position annotation of `tokenize_line`: the column counter starts at 0 and
advances by `token length + 1` per emitted token. -/
def annotate (line : Nat) : Nat → List String → List (String × Pos)
  | _, [] => []
  | col, t :: ts => (t, (line, col)) :: annotate line (col + t.length + 1) ts

/-- Tokenizer state for a single line of input, as `Tokenizer::new` leaves it
(initial `latest_pos` is `(0, 0)`, first line is numbered 0). -/
def stateOfLine (s : String) : PState :=
  ⟨annotate 0 0 (tokenizeLine s), (0, 0)⟩

/-- Result of a parser function: expression plus remaining tokenizer state, an
error, the `panic!` in `parse_quasiquote`, or fuel exhaustion. -/
inductive POut where
  | ok : LinslExpr → PState → POut
  | err : LinslErr → POut
  | panic : POut
  | fuelOut : POut

/-- Result of the list-element loop of `parse_list`. -/
inductive PListOut where
  | ok : List LinslExpr → PState → PListOut
  | err : LinslErr → PListOut
  | panic : PListOut
  | fuelOut : PListOut

/-- The two element parsers the source passes to `parse_list` as function
pointers: `parse` and `parse_quasiquote_elem_in_list`. -/
inductive ElemParser where
  | plain
  | quasi

/-- Numeric value of a digit character. -/
def digitVal (c : Char) : Nat := c.toNat - 48

/-- Value of a digit run, most significant first. -/
def natOfDigits (cs : List Char) : Nat :=
  cs.foldl (fun a c => a * 10 + digitVal c) 0

/-- Mantissa of a float literal: `digits`, `digits.digits`, `digits.` or
`.digits`, with at least one digit. -/
def parseMantissa (cs : List Char) : Option Num :=
  let ip := cs.takeWhile Char.isDigit
  match cs.dropWhile Char.isDigit with
  | [] => if ip.isEmpty then none else some (natOfDigits ip : Num)
  | '.' :: fp =>
    if fp.all Char.isDigit && !(ip.isEmpty && fp.isEmpty) then
      some ((natOfDigits ip : Num) + (natOfDigits fp : Num) / ((10 : Num) ^ fp.length))
    else none
  | _ => none

/-- Optional exponent suffix: an optionally signed digit run. -/
def parseExpPart (cs : List Char) : Option Int :=
  match cs with
  | '+' :: ds => if ds ≠ [] && ds.all Char.isDigit then some (natOfDigits ds : Int) else none
  | '-' :: ds => if ds ≠ [] && ds.all Char.isDigit then some (-(natOfDigits ds : Int)) else none
  | ds => if ds ≠ [] && ds.all Char.isDigit then some (natOfDigits ds : Int) else none

/-- Unsigned float literal: mantissa with optional `e`/`E` exponent. -/
def parseDecExp (cs : List Char) : Option Num :=
  let mant := cs.takeWhile (fun c => c.isDigit || c = '.')
  match parseMantissa mant, cs.dropWhile (fun c => c.isDigit || c = '.') with
  | some m, [] => some m
  | some m, e :: sexp =>
    if e = 'e' || e = 'E' then
      match parseExpPart sexp with
      | some k => some (m * (10 : Num) ^ k)
      | none => none
    else none
  | none, _ => none

/-- Models the `atom.parse::<Num>()` call of `parse_atom` over decimal
literals.  The exotic forms Rust's `f64::from_str` also accepts (`inf`, `NaN`)
and rounding of non-representable decimals are outside what any claim
exercises. -/
def parseFloatLit (s : String) : Option Num :=
  match s.toList with
  | '+' :: rest => parseDecExp rest
  | '-' :: rest =>
    match parseDecExp rest with
    | some v => some (-v)
    | none => none
  | cs => parseDecExp cs

/-- Models `parse_atom` of parsing.rs.  `atom.parse::<f64>()` is modelled by
`parseFloatLit`, exact on the integer literals the claims use. -/
def parse_atom (atom : String) : LinslExpr :=
  match atom with
  | "#t" => .bool true
  | "#f" => .bool false
  | _ =>
    match parseFloatLit atom with
    | some v => .number v
    | none => .symbol atom

mutual

/-- Models `parse` of parsing.rs. -/
def parse : Nat → PState → POut
  | 0, _ => .fuelOut
  | Nat.succ n, st =>
    match nextToken st with
    | none => .err (.InternalError "Unexpected EOF.")
    | some (token, st1) =>
      if token = "\x27" then parse_quote n st1
      else if token = "\x60" then parse_quasiquote n st1
      else if token = "(" then
        match parse_list_elems n .plain st1 with
        | .ok elems st2 => .ok (.list elems) st2
        | .err e => .err e
        | .panic => .panic
        | .fuelOut => .fuelOut
      else if token = ")" then
        .err (.SyntaxError "Unexpected closing parenthesis." st1.latestPos)
      else .ok (parse_atom token) st1

/-- Element loop of `parse_list` (parsing.rs): parse elements with the supplied
parser until a `)` is peeked (then consumed); end of input is a syntax error. -/
def parse_list_elems : Nat → ElemParser → PState → PListOut
  | 0, _, _ => .fuelOut
  | Nat.succ n, ep, st =>
    match peekToken st with
    | none => .err (.SyntaxError "Found only opening parentheses." st.latestPos)
    | some token =>
      if token = ")" then
        match nextToken st with
        | some (_, st1) => .ok [] st1
        | none => .ok [] st
      else
        match runElem n ep st with
        | .ok exp st1 =>
          match parse_list_elems n ep st1 with
          | .ok elems st2 => .ok (exp :: elems) st2
          | other => other
        | .err e => .err e
        | .panic => .panic
        | .fuelOut => .fuelOut

/-- Dispatches the element-parser function pointer of `parse_list`; consumes a
unit of fuel so every mutual call strictly decreases it. -/
def runElem : Nat → ElemParser → PState → POut
  | 0, _, _ => .fuelOut
  | Nat.succ n, .plain, st => parse n st
  | Nat.succ n, .quasi, st => parse_quasiquote_elem_in_list n st

/-- Models `parse_quote` of parsing.rs. -/
def parse_quote : Nat → PState → POut
  | 0, _ => .fuelOut
  | Nat.succ n, st =>
    match parse n st with
    | .ok expr st1 => .ok (.list [.symbol "quote", expr]) st1
    | other => other

/-- Models `parse_quasiquote` of parsing.rs.  In the final (atom) arm the
consumed token is not used: the source falls through to `parse_quote`, which
reads the following tokens. -/
def parse_quasiquote : Nat → PState → POut
  | 0, _ => .fuelOut
  | Nat.succ n, st =>
    match nextToken st with
    | none => .err (.SyntaxError "Unexpected EOF." st.latestPos)
    | some (token, st1) =>
      if token = "," then parse n st1
      else if token = ",@" then
        .err (.SyntaxError "Cannot have ,@ at top level of \x60" st1.latestPos)
      else if token = "(" then
        match parse_list_elems n .quasi st1 with
        | .ok v st2 => .ok (.list (.symbol "append" :: v)) st2
        | .err e => .err e
        | .panic => .panic
        | .fuelOut => .fuelOut
      else parse_quote n st1

/-- Models `parse_quasiquote_elem_in_list` of parsing.rs.  In the final arm the
consumed token is not used: the source wraps the next parsed expression. -/
def parse_quasiquote_elem_in_list : Nat → PState → POut
  | 0, _ => .fuelOut
  | Nat.succ n, st =>
    match nextToken st with
    | none => .err (.SyntaxError "Unexpected EOF." st.latestPos)
    | some (token, st1) =>
      if token = "," then
        match parse n st1 with
        | .ok e st2 => .ok (.list [.symbol "list", e]) st2
        | other => other
      else if token = ",@" then parse n st1
      else
        match parse n st1 with
        | .ok e st2 => .ok (.list [.symbol "list", .list [.symbol "quote", e]]) st2
        | other => other

end

/-- The macro-application protocol exactly as §4.4 of the spec words it: bind
the argument forms unevaluated into a fresh child of the caller's scope,
evaluate the macro body once there, then evaluate the resulting expansion in
the original caller's scope. -/
def macrApply (fuel : Nat) (param body : LinslExpr) (args : List LinslExpr)
    (env : LinslEnv) : EvalOut :=
  match bind param (.list args) (LinslEnv.new env) with
  | .ok macro_env =>
    match evaluate fuel body macro_env with
    | .ok expansion _ => evaluate fuel expansion env
    | other => other
  | .err e => .err e
  | .panic => .panic

/- Theorems ------------------------------------------------------------- -/

/-- Helper: `parse_list_of_symbols` succeeds on a list of symbol atoms and
returns exactly the underlying names. -/
theorem collectSyms_map (symbs : List String) :
    collectSyms (symbs.map LinslExpr.symbol) = .ok symbs := by
  induction symbs with
  | nil => rfl
  | cons s ss ih => simp [collectSyms, ih]

/-- Helper: the zip-loop of `bind` prepends the bound pairs in reverse order. -/
theorem foldl_insert_inner (ps : List (String × LinslExpr)) (env : LinslEnv) :
    ps.foldl (fun e kv => envInsert e kv.1 kv.2) env
      = .mk (ps.reverse ++ env.inner) env.outer := by
  induction ps generalizing env with
  | nil =>
    cases env with
    | mk inner outer => rfl
  | cons p ps ih =>
    cases env with
    | mk inner outer =>
      rw [List.foldl_cons, ih]
      simp [envInsert, LinslEnv.inner, LinslEnv.outer]

/-- Helper: association lookup distributes over append. -/
theorem lookupStr_append (l1 l2 : List (String × LinslExpr)) (s : String) :
    lookupStr (l1 ++ l2) s
      = match lookupStr l1 s with
        | some v => some v
        | none => lookupStr l2 s := by
  induction l1 with
  | nil => rfl
  | cons p l ih =>
    obtain ⟨k, v⟩ := p
    by_cases h : s = k <;> simp [lookupStr, h, ih]

/-- Helper: lookup misses when the key is absent. -/
theorem lookupStr_eq_none (ps : List (String × LinslExpr)) (s : String)
    (h : s ∉ ps.map Prod.fst) : lookupStr ps s = none := by
  induction ps with
  | nil => rfl
  | cons p l ih =>
    obtain ⟨k, v⟩ := p
    simp only [List.map_cons, List.mem_cons, not_or] at h
    simp [lookupStr, h.1, ih h.2]

/-- Helper: with pairwise-distinct keys, lookup is insensitive to reversal. -/
theorem lookupStr_reverse_nodup (ps : List (String × LinslExpr))
    (hnd : (ps.map Prod.fst).Nodup) (s : String) :
    lookupStr ps.reverse s = lookupStr ps s := by
  induction ps with
  | nil => rfl
  | cons p l ih =>
    obtain ⟨k, v⟩ := p
    simp only [List.map_cons, List.nodup_cons] at hnd
    obtain ⟨hk, hnd2⟩ := hnd
    rw [List.reverse_cons, lookupStr_append, ih hnd2]
    by_cases h : s = k
    · subst h
      rw [lookupStr_eq_none l s hk]
      simp [lookupStr]
    · cases hl : lookupStr l s <;> simp [lookupStr, h, hl]

/-- Helper: looking up the j-th of pairwise-distinct symbols in the zip of
symbols and values returns the j-th value. -/
theorem lookupStr_zip_get (symbs : List String) (vals : List LinslExpr)
    (hnd : symbs.Nodup) (j : Nat) (hj : j < symbs.length) (hjv : j < vals.length) :
    lookupStr (symbs.zip vals) (symbs.get ⟨j, hj⟩) = some (vals.get ⟨j, hjv⟩) := by
  induction symbs generalizing vals j with
  | nil => simp at hj
  | cons s ss ih =>
    cases vals with
    | nil => simp at hjv
    | cons v vs =>
      cases j with
      | zero => simp [List.zip_cons_cons, lookupStr]
      | succ j2 =>
        simp only [List.nodup_cons] at hnd
        obtain ⟨hs, hnd2⟩ := hnd
        have hj2 : j2 < ss.length := by simpa using hj
        have hjv2 : j2 < vs.length := by simpa using hjv
        have hne : ss[j2] ≠ s := fun h => hs (h ▸ List.getElem_mem hj2)
        simpa [List.zip_cons_cons, lookupStr, hne, List.zip] using ih vs hnd2 j2 hj2 hjv2

/-- C1: the claim states that the root environment of `LinslEnv::default` binds
all twelve names of the primitive table of §4.5.  The source registers only
eight of them: lookups of `list`, `append`, `empty?` and `eqt?` fail in the
root scope even though the corresponding functions (`list`, `append`, `is_nil`,
`eq_types`) exist in primitives.rs. -/
theorem claim1_default_env_registers_only_eight :
    env_get "+" LinslEnv.default = some (.primitive .add)
  ∧ env_get "*" LinslEnv.default = some (.primitive .mul)
  ∧ env_get "neg" LinslEnv.default = some (.primitive .neg)
  ∧ env_get "inv" LinslEnv.default = some (.primitive .inv)
  ∧ env_get "=" LinslEnv.default = some (.primitive .eq)
  ∧ env_get ">" LinslEnv.default = some (.primitive .gr)
  ∧ env_get "car" LinslEnv.default = some (.primitive .car)
  ∧ env_get "cdr" LinslEnv.default = some (.primitive .cdr)
  ∧ env_get "list" LinslEnv.default = none
  ∧ env_get "append" LinslEnv.default = none
  ∧ env_get "empty?" LinslEnv.default = none
  ∧ env_get "eqt?" LinslEnv.default = none :=
  ⟨rfl, rfl, rfl, rfl, rfl, rfl, rfl, rfl, rfl, rfl, rfl, rfl⟩

/-- C2: the claim states that `evaluate` never panics, and in particular that
applying a closure with an empty parameter list to one or more values returns
an error.  Evaluating `((lambda () 1) 2)` in the root environment instead
reaches the usize underflow `0 - 1` in `bind` and panics. -/
theorem claim2_zero_param_closure_panics :
    evaluate 20
      (.list [.list [.symbol "lambda", .list [], .number 1], .number 2])
      LinslEnv.default = .panic :=
  rfl

/-- C3 counterexample: the claim's example says binding params `(a b)` to
values `(1 2 3 4)` leaves `b` bound to the list `(3 4)`.  The source binds `b`
to `(2 3 4)` — the rest segment starts at value index `symbols - 1` — and
`(2 3 4)` is not `(3 4)`. -/
theorem claim3_example_counterexample :
    (∃ env2, bind (.list [.symbol "a", .symbol "b"])
        (.list [.number 1, .number 2, .number 3, .number 4]) (.mk [] none) = .ok env2
      ∧ env_get "b" env2 = some (.list [.number 2, .number 3, .number 4])
      ∧ env_get "a" env2 = some (.number 1))
    ∧ LinslExpr.list [.number 2, .number 3, .number 4] ≠ .list [.number 3, .number 4] :=
  ⟨⟨_, rfl, rfl, rfl⟩, by simp⟩

/-- C5: the claim states that any unit of input with mismatched parenthesis
counts fails with `UnbalancedParens` (or a `SyntaxError`) before any token is
produced, and that no parsed Expression is returned for it.  `check_parens`
detects the mismatch in `"1)"`, yet the pipeline never calls it: the tokenizer
produces both tokens and `parse` returns the Expression `Number 1`. -/
theorem claim5_unbalanced_unit_still_parses :
    check_parens "1)" = some (0, 1)
  ∧ tokenizeLine "1)" = ["1", ")"]
  ∧ parse 5 (stateOfLine "1)") = .ok (.number 1) ⟨[(")", (0, 2))], (0, 0)⟩ :=
  ⟨rfl, rfl, rfl⟩

/-- C6: the claim states that user-supplied source alone never yields an
`InternalError`.  Two user-level inputs do: the arity check of the primitive
`>` (evaluating `(> 1)`), and source text consisting of a lone `'` (the parser
hits end of input and returns `InternalError "Unexpected EOF."`). -/
theorem claim6_user_input_reaches_internal_error :
    evaluate 10 (.list [.symbol ">", .number 1]) LinslEnv.default
      = .err (.InternalError "Expected two numbers two compare, got 1")
  ∧ parse 5 (stateOfLine "\x27") = .err (.InternalError "Unexpected EOF.") :=
  ⟨rfl, rfl⟩

/-- C10: evaluating the empty List expression `()` returns the SyntaxError
`"Expected non-empty list"` in every environment (given any recursion budget
large enough to take the two dispatch steps); it is never a value. -/
theorem claim10_empty_list_is_error (env : LinslEnv) (n : Nat) :
    evaluate (n + 2) (.list []) env
      = .err (.SyntaxError "Expected non-empty list" (0, 0)) :=
  rfl

/-- C8: for every environment — including any that binds these names — and
every argument list, evaluating a list headed by `define`, `if`, `lambda`,
`macro` or `quote` runs the dedicated special-form handler on the unevaluated
remaining elements; no environment lookup of the head occurs, so the five
names cannot be shadowed. -/
theorem claim8_special_forms_unshadowable (env : LinslEnv) (args : List LinslExpr) (n : Nat) :
    (evaluate (n + 3) (.list (.symbol "define" :: args)) env = evaluate_define n args env)
  ∧ (evaluate (n + 3) (.list (.symbol "if" :: args)) env = evaluate_if n args env)
  ∧ (evaluate (n + 3) (.list (.symbol "lambda" :: args)) env = evaluate_lambda args env)
  ∧ (evaluate (n + 3) (.list (.symbol "macro" :: args)) env = evaluate_macr_form args env)
  ∧ (evaluate (n + 3) (.list (.symbol "quote" :: args)) env =
      match args with
      | e :: _ => .ok e env
      | [] => .err (.SyntaxError "Found no expression to quote." (0, 0))) := by
  refine ⟨rfl, rfl, rfl, rfl, ?_⟩
  cases args <;> rfl

/-- C9: `car` and `cdr` on exactly one argument: both return the empty List on
the empty List (never an error), `car` returns the first element and `cdr` the
List of remaining elements on a non-empty List, and both return an error on
any non-List argument. -/
theorem claim9_car_cdr_behaviour :
    car [.list []] = .ok (.list [])
  ∧ cdr [.list []] = .ok (.list [])
  ∧ (∀ x xs, car [.list (x :: xs)] = .ok x)
  ∧ (∀ x xs, cdr [.list (x :: xs)] = .ok (.list xs))
  ∧ (∀ v, variantTag v ≠ 2 →
      car [v] = .error (.SyntaxError "Can only find car of lists" (0, 0))
      ∧ cdr [v] = .error (.SyntaxError "Can only find cdr of lists." (0, 0))) := by
  refine ⟨rfl, rfl, fun x xs => rfl, fun x xs => rfl, fun v hv => ?_⟩
  cases v with
  | list l => exact absurd rfl hv
  | bool b => exact ⟨rfl, rfl⟩
  | closure p b => exact ⟨rfl, rfl⟩
  | number x => exact ⟨rfl, rfl⟩
  | primitive f => exact ⟨rfl, rfl⟩
  | symbol s => exact ⟨rfl, rfl⟩
  | macr p b => exact ⟨rfl, rfl⟩

/-- C9 witness: the non-List case of `claim9_car_cdr_behaviour` at the concrete
argument `Number 5`. -/
theorem claim9_car_cdr_behaviour_witness :
    car [.number 5] = .error (.SyntaxError "Can only find car of lists" (0, 0))
  ∧ cdr [.number 5] = .error (.SyntaxError "Can only find cdr of lists." (0, 0)) :=
  claim9_car_cdr_behaviour.2.2.2.2 (.number 5) (by decide)

/-- C4: the claim states that parsing the source `` `(1 ,(+ 1 1) 3) `` yields
the expansion `(append (list (quote 1)) (list (+ 1 1)) (list (quote 3)))` and
that evaluating it in the root environment yields the List `(1 2 3)`.  The
element parser drops each consumed non-unquote token and wraps the following
expression instead, so the parse actually yields
`(append (list (quote ,)) (list (quote +)) (list (quote 1)))` with the tokens
`3 )` left unconsumed; and even the claimed expansion cannot evaluate to
`(1 2 3)`, because `append` is unbound in the root environment. -/
theorem claim4_quasiquote_expansion_diverges :
    parse 50 (stateOfLine "\x60(1 ,(+ 1 1) 3)")
      = .ok (.list [.symbol "append",
          .list [.symbol "list", .list [.symbol "quote", .symbol ","]],
          .list [.symbol "list", .list [.symbol "quote", .symbol "+"]],
          .list [.symbol "list", .list [.symbol "quote", .number 1]]])
          ⟨[("3", (0, 18)), (")", (0, 20))], (0, 16)⟩
  ∧ (LinslExpr.list [.symbol "append",
          .list [.symbol "list", .list [.symbol "quote", .symbol ","]],
          .list [.symbol "list", .list [.symbol "quote", .symbol "+"]],
          .list [.symbol "list", .list [.symbol "quote", .number 1]]]
      ≠ .list [.symbol "append",
          .list [.symbol "list", .list [.symbol "quote", .number 1]],
          .list [.symbol "list", .list [.symbol "+", .number 1, .number 1]],
          .list [.symbol "list", .list [.symbol "quote", .number 3]]])
  ∧ evaluate 20
      (.list [.symbol "append",
          .list [.symbol "list", .list [.symbol "quote", .number 1]],
          .list [.symbol "list", .list [.symbol "+", .number 1, .number 1]],
          .list [.symbol "list", .list [.symbol "quote", .number 3]]])
      LinslEnv.default
      = .err (.SyntaxError "Undefined symbol \x27append\x27" (0, 0)) :=
  ⟨rfl, by simp, rfl⟩

/-- C7: applying a Macro binds the argument forms unevaluated into a child of
the caller's scope, evaluates the macro body exactly once there, then
evaluates the resulting expansion in the original caller's scope — the
protocol `macrApply` states in the spec's words.  Holds for every head symbol
that is not one of the five special forms and resolves to a Macro. -/
theorem claim7_macro_binds_unevaluated (m : String) (p b : LinslExpr)
    (args : List LinslExpr) (env : LinslEnv) (n : Nat)
    (hm : m ∉ (["define", "if", "lambda", "macro", "quote"] : List String))
    (hget : env_get m env = some (.macr p b)) :
    evaluate (n + 3) (.list (.symbol m :: args)) env
      = macrApply (n + 1) p b args env := by
  have h1 : m ≠ "define" := fun h => hm (by simp [h])
  have h2 : m ≠ "if" := fun h => hm (by simp [h])
  have h3 : m ≠ "lambda" := fun h => hm (by simp [h])
  have h4 : m ≠ "macro" := fun h => hm (by simp [h])
  have h5 : m ≠ "quote" := fun h => hm (by simp [h])
  show evaluate (Nat.succ (Nat.succ (Nat.succ n))) (.list (.symbol m :: args)) env
      = macrApply (Nat.succ n) p b args env
  simp only [evaluate, evaluate_list, evaluate_built_in_form, macrApply,
    h1, h2, h3, h4, h5, if_false, ite_false, hget]

/-- C7 witness: a macro that ignores its parameter, applied to the argument
form `(boom)` — a form that errors if evaluated — expands to `7` and the
expansion evaluates to `7` in the caller's scope; the argument form is never
evaluated. -/
theorem claim7_macro_binds_unevaluated_witness :
    evaluate 4 (.list [.symbol "m", .list [.symbol "boom"]])
      (.mk [("m", .macr (.list [.symbol "x"]) (.number 7))] none)
      = .ok (.number 7) (.mk [("m", .macr (.list [.symbol "x"]) (.number 7))] none) :=
  claim7_macro_binds_unevaluated "m" (.list [.symbol "x"]) (.number 7)
    [.list [.symbol "boom"]]
    (.mk [("m", .macr (.list [.symbol "x"]) (.number 7))] none) 1
    (by decide) rfl

/-- C3 (amended): for a parameter spec of n ≥ 1 distinct symbols and m > n
values, `bind` succeeds, binds the first n-1 symbols one-to-one to the first
n-1 values, and binds the last symbol to the List of the values from index
n-1 on — the remaining m-n+1 values — so params `(a b)` over `(1 2 3 4)`
yield `a = 1` and `b = (2 3 4)`. -/
theorem claim3_variadic_rest_binding (symbs : List String) (vals : List LinslExpr)
    (env0 : LinslEnv) (hnd : symbs.Nodup) (hlen : 1 ≤ symbs.length)
    (hlt : symbs.length < vals.length) :
    ∃ env2, bind (.list (symbs.map .symbol)) (.list vals) env0 = .ok env2
      ∧ (∀ j (hj : j < symbs.length - 1),
          env_get (symbs.get ⟨j, by omega⟩) env2 = some (vals.get ⟨j, by omega⟩))
      ∧ env_get (symbs.get ⟨symbs.length - 1, by omega⟩) env2
          = some (.list (vals.drop (symbs.length - 1))) := by
  obtain ⟨inner0, outer0⟩ := env0
  obtain ⟨k, hk⟩ : ∃ k, symbs.length = k + 1 := ⟨symbs.length - 1, by omega⟩
  have hks : k < symbs.length := by omega
  have hgetd : symbs.getD k "" = symbs.get ⟨k, hks⟩ := by
    rw [List.getD_eq_getElem symbs "" hks, List.get_eq_getElem]
  have hbind : bind (.list (symbs.map .symbol)) (.list vals) (.mk inner0 outer0)
      = .ok (envInsert (.mk ((symbs.zip vals).reverse ++ inner0) outer0)
          (symbs.getD k "") (.list (vals.drop k))) := by
    simp only [bind, parse_list_of_symbols, collectSyms_map]
    rw [if_neg (by omega), foldl_insert_inner, if_pos hlt, hk]
    rfl
  have hkeys : ((symbs.zip vals).map Prod.fst).Nodup := by
    rw [List.map_fst_zip symbs vals (le_of_lt hlt)]
    exact hnd
  refine ⟨_, hbind, ?_, ?_⟩
  · intro j hj
    have hjs : j < symbs.length := by omega
    have hjv : j < vals.length := by omega
    have hne : symbs.get ⟨j, hjs⟩ ≠ symbs.getD k "" := by
      rw [hgetd]
      intro h
      have hjk : j = k := by simpa using (List.Nodup.get_inj_iff hnd).mp h
      omega
    have hlook : lookupStr ((symbs.getD k "", LinslExpr.list (vals.drop k))
          :: ((symbs.zip vals).reverse ++ inner0)) (symbs.get ⟨j, hjs⟩)
        = some (vals.get ⟨j, hjv⟩) := by
      rw [lookupStr, if_neg hne, lookupStr_append,
        lookupStr_reverse_nodup _ hkeys,
        lookupStr_zip_get symbs vals hnd j hjs hjv]
    cases outer0 with
    | none =>
      show env_get (symbs.get ⟨j, hjs⟩)
          (.mk ((symbs.getD k "", LinslExpr.list (vals.drop k))
            :: ((symbs.zip vals).reverse ++ inner0)) none)
        = some (vals.get ⟨j, hjv⟩)
      simp only [env_get]
      rw [hlook]
    | some oe =>
      show env_get (symbs.get ⟨j, hjs⟩)
          (.mk ((symbs.getD k "", LinslExpr.list (vals.drop k))
            :: ((symbs.zip vals).reverse ++ inner0)) (some oe))
        = some (vals.get ⟨j, hjv⟩)
      simp only [env_get]
      rw [hlook]
  · have hlast : symbs.length - 1 = k := by omega
    simp only [hlast]
    have hlookb : lookupStr ((symbs.getD k "", LinslExpr.list (vals.drop k))
          :: ((symbs.zip vals).reverse ++ inner0)) (symbs.get ⟨k, hks⟩)
        = some (.list (vals.drop k)) := by
      rw [lookupStr, hgetd]
      simp
    cases outer0 with
    | none =>
      show env_get (symbs.get ⟨k, hks⟩)
          (.mk ((symbs.getD k "", LinslExpr.list (vals.drop k))
            :: ((symbs.zip vals).reverse ++ inner0)) none)
        = some (.list (vals.drop k))
      simp only [env_get]
      rw [hlookb]
    | some oe =>
      show env_get (symbs.get ⟨k, hks⟩)
          (.mk ((symbs.getD k "", LinslExpr.list (vals.drop k))
            :: ((symbs.zip vals).reverse ++ inner0)) (some oe))
        = some (.list (vals.drop k))
      simp only [env_get]
      rw [hlookb]

/-- C3 witness: the general theorem instantiated at params `(a b)` and values
`(1 2 3 4)`: binding succeeds with `a = 1` and `b = (2 3 4)`. -/
theorem claim3_variadic_rest_binding_witness :
    ∃ env2, bind (.list (["a", "b"].map LinslExpr.symbol))
        (.list [.number 1, .number 2, .number 3, .number 4]) (.mk [] none) = .ok env2
      ∧ env_get "a" env2 = some (.number 1)
      ∧ env_get "b" env2 = some (.list [.number 2, .number 3, .number 4]) := by
  obtain ⟨env2, h1, h2, h3⟩ :=
    claim3_variadic_rest_binding ["a", "b"]
      [.number 1, .number 2, .number 3, .number 4]
      (.mk [] none) (by decide) (by decide) (by decide)
  exact ⟨env2, h1, h2 0 (by decide), h3⟩

end Linsl
